import Mathlib

/-!
Verification of the Tonnetz lattice engine of the music-grid-game repository
(src/game.js, class TonnetzSystem and TonnetzGame.createTonnetzGrid).

All world coordinates produced by the program lie in the field Q[sqrt 3]
(x coordinates are rational, z coordinates are rational multiples of sqrt 3,
and the point-in-triangle cross products mix the two).  We therefore embed
coordinates exactly as pairs (a, b) denoting a + b * sqrt 3, with computable
ring operations and a computable sign test, and we prove the sign test agrees
with the real-number order via the interpretation map QS3.toReal.
-/

set_option maxRecDepth 4000

/-- An element a + b * sqrt 3 of the real quadratic field Q[sqrt 3],
represented exactly by its rational coordinates. -/
@[ext] structure QS3 where
  a : ℚ
  b : ℚ
deriving DecidableEq

namespace QS3

def zero : QS3 := ⟨0, 0⟩

def add (x y : QS3) : QS3 := ⟨x.a + y.a, x.b + y.b⟩

def sub (x y : QS3) : QS3 := ⟨x.a - y.a, x.b - y.b⟩

def neg (x : QS3) : QS3 := ⟨-x.a, -x.b⟩

def mul (x y : QS3) : QS3 := ⟨x.a * y.a + 3 * (x.b * y.b), x.a * y.b + x.b * y.a⟩

/-- Embed a rational number into Q[sqrt 3]. -/
def ofRat (q : ℚ) : QS3 := ⟨q, 0⟩

/-- Division by a rational scalar (used only for the centroid division by 3
and the halvings occurring in the layout constants). -/
def divRat (x : QS3) (q : ℚ) : QS3 := ⟨x.a / q, x.b / q⟩

instance : Zero QS3 := ⟨zero⟩
instance : Add QS3 := ⟨add⟩
instance : Sub QS3 := ⟨sub⟩
instance : Neg QS3 := ⟨neg⟩
instance : Mul QS3 := ⟨mul⟩
instance : Inhabited QS3 := ⟨zero⟩

theorem zero_def : (0 : QS3) = ⟨0, 0⟩ := rfl

theorem add_def (x y : QS3) : x + y = ⟨x.a + y.a, x.b + y.b⟩ := rfl

theorem sub_def (x y : QS3) : x - y = ⟨x.a - y.a, x.b - y.b⟩ := rfl

theorem neg_def (x : QS3) : -x = ⟨-x.a, -x.b⟩ := rfl

theorem mul_def (x y : QS3) :
    x * y = ⟨x.a * y.a + 3 * (x.b * y.b), x.a * y.b + x.b * y.a⟩ := rfl

/-- Computable strict-positivity test for a + b * sqrt 3, by rational
arithmetic alone (comparing a^2 with 3 * b^2 in the mixed-sign cases). -/
def isPos (x : QS3) : Bool :=
  if 0 ≤ x.a then
    if 0 ≤ x.b then decide (0 < x.a ∨ 0 < x.b)
    else decide (3 * x.b ^ 2 < x.a ^ 2)
  else
    if 0 ≤ x.b then decide (x.a ^ 2 < 3 * x.b ^ 2)
    else false

/-- Computable strict-negativity test: x < 0 iff -x > 0. -/
def isNeg (x : QS3) : Bool := isPos ⟨-x.a, -x.b⟩

/-- Interpretation of an exact Q[sqrt 3] element as a real number. -/
noncomputable def toReal (x : QS3) : ℝ := (x.a : ℝ) + (x.b : ℝ) * Real.sqrt 3

theorem toReal_mk (a b : ℚ) : toReal ⟨a, b⟩ = (a : ℝ) + (b : ℝ) * Real.sqrt 3 := rfl

theorem toReal_zero : toReal 0 = 0 := by simp [toReal, zero_def]

theorem toReal_add (x y : QS3) : toReal (x + y) = toReal x + toReal y := by
  simp [toReal, add_def]; push_cast; ring

theorem toReal_sub (x y : QS3) : toReal (x - y) = toReal x - toReal y := by
  simp [toReal, sub_def]; push_cast; ring

theorem toReal_neg (x : QS3) : toReal (-x) = -toReal x := by
  simp [toReal, neg_def]; push_cast; ring

theorem sqrt3_mul_self : Real.sqrt 3 * Real.sqrt 3 = 3 :=
  Real.mul_self_sqrt (by norm_num)

theorem toReal_mul (x y : QS3) : toReal (x * y) = toReal x * toReal y := by
  simp only [toReal, mul_def]
  push_cast
  linear_combination (-(x.b : ℝ) * (y.b : ℝ)) * sqrt3_mul_self

theorem toReal_ofRat (q : ℚ) : toReal (ofRat q) = (q : ℝ) := by
  simp [toReal, ofRat]

theorem sqrt3_pos : (0 : ℝ) < Real.sqrt 3 := Real.sqrt_pos.mpr (by norm_num)

/-- The computable positivity test is faithful to the real-number order. -/
theorem isPos_iff (x : QS3) : x.isPos = true ↔ 0 < x.toReal := by
  rcases x with ⟨a, b⟩
  simp only [isPos, toReal_mk]
  have h3 := sqrt3_pos
  have hsq := sqrt3_mul_self
  by_cases ha : (0 : ℚ) ≤ a
  · by_cases hb : (0 : ℚ) ≤ b
    · simp only [ha, hb, if_true, decide_eq_true_eq]
      have ha' : (0 : ℝ) ≤ (a : ℝ) := by exact_mod_cast ha
      have hb' : (0 : ℝ) ≤ (b : ℝ) := by exact_mod_cast hb
      constructor
      · rintro (h | h)
        · have h' : (0 : ℝ) < (a : ℝ) := by exact_mod_cast h
          nlinarith [mul_nonneg hb' h3.le]
        · have h' : (0 : ℝ) < (b : ℝ) := by exact_mod_cast h
          nlinarith [mul_pos h' h3]
      · intro h
        by_contra hc
        push_neg at hc
        have h1 : a = 0 := le_antisymm hc.1 ha
        have h2 : b = 0 := le_antisymm hc.2 hb
        rw [h1, h2] at h
        norm_num at h
    · push_neg at hb
      simp only [ha, hb.not_le, if_true, if_false, decide_eq_true_eq]
      have ha' : (0 : ℝ) ≤ (a : ℝ) := by exact_mod_cast ha
      have hb' : (b : ℝ) < 0 := by exact_mod_cast hb
      constructor
      · intro h
        have h' : 3 * (b : ℝ) ^ 2 < (a : ℝ) ^ 2 := by exact_mod_cast h
        by_contra hc
        push_neg at hc
        nlinarith [mul_pos (neg_pos.mpr hb') h3]
      · intro h
        have key : 3 * (b : ℝ) ^ 2 < (a : ℝ) ^ 2 := by
          nlinarith [mul_pos (neg_pos.mpr hb') h3]
        exact_mod_cast key
  · push_neg at ha
    by_cases hb : (0 : ℚ) ≤ b
    · simp only [ha.not_le, hb, if_true, if_false, decide_eq_true_eq]
      have ha' : (a : ℝ) < 0 := by exact_mod_cast ha
      have hb' : (0 : ℝ) ≤ (b : ℝ) := by exact_mod_cast hb
      constructor
      · intro h
        have h' : (a : ℝ) ^ 2 < 3 * (b : ℝ) ^ 2 := by exact_mod_cast h
        by_contra hc
        push_neg at hc
        nlinarith [mul_nonneg hb' h3.le]
      · intro h
        have key : (a : ℝ) ^ 2 < 3 * (b : ℝ) ^ 2 := by
          nlinarith [mul_nonneg hb' h3.le]
        exact_mod_cast key
    · push_neg at hb
      simp only [ha.not_le, hb.not_le, if_false]
      have ha' : (a : ℝ) < 0 := by exact_mod_cast ha
      have hb' : (b : ℝ) < 0 := by exact_mod_cast hb
      have : (a : ℝ) + (b : ℝ) * Real.sqrt 3 < 0 := by
        nlinarith [mul_pos (neg_pos.mpr hb') h3]
      constructor
      · intro h; cases h
      · intro h; linarith

/-- The computable negativity test is faithful to the real-number order. -/
theorem isNeg_iff (x : QS3) : x.isNeg = true ↔ x.toReal < 0 := by
  have h := isPos_iff ⟨-x.a, -x.b⟩
  rw [isNeg, h, toReal_mk, toReal]
  push_cast
  constructor <;> intro h' <;> linarith

end QS3

/-!
Data model of the Tonnetz core, translated from src/game.js
(class TonnetzSystem, constructor and methods).
-/

/-- A 2D point of the x/z plane, with exact Q[sqrt 3] coordinates. -/
@[ext] structure P2 where
  x : QS3
  z : QS3
deriving DecidableEq

instance : Inhabited P2 := ⟨⟨0, 0⟩⟩

/-- A grid cell of the pitch-class lattice: pitch class plus display name
(src/game.js generateGrid stores objects with these two fields). -/
structure GridCell where
  pitchClass : ℤ
  noteName : String
deriving DecidableEq

instance : Inhabited GridCell := ⟨⟨0, ""⟩⟩

/-- A triangle vertex: world position plus the pitch data of its grid cell
(src/game.js generateTriangles vertex records). -/
structure Vertex where
  x : QS3
  z : QS3
  pitchClass : ℤ
  noteName : String
deriving DecidableEq

instance : Inhabited Vertex := ⟨⟨0, 0, 0, ""⟩⟩

/-- A tessellation triangle (src/game.js generateTriangles element). -/
structure Triangle where
  type : String
  vertices : List Vertex
  center : P2
  chord : List ℤ
  chordName : String
  row : ℕ
  col : ℕ
deriving DecidableEq

instance : Inhabited Triangle := ⟨⟨"", [], default, [], "", 0, 0⟩⟩

/-- Configuration constants of the TonnetzSystem constructor. -/
def gridWidth : ℕ := 12

def gridHeight : ℕ := 8

def triangleSize : ℚ := 3

def fifthInterval : ℤ := 7

def majorThirdInterval : ℤ := 4

def minorThirdInterval : ℤ := 3

/-- The preferred-enharmonic note-name table of src/game.js
(this.pitchClassToName in the TonnetzSystem constructor). -/
def pitchClassToName : List String :=
  ["C", "Db", "D", "Eb", "E", "F", "F#", "G", "Ab", "A", "Bb", "B"]

/-- TonnetzSystem.getNoteName: table lookup, with the out-of-range fallback
value the source logs before returning. -/
def getNoteName (pitchClass : ℤ) : String :=
  if pitchClass < 0 then "?" else pitchClassToName.getD pitchClass.toNat "?"

/-- The grid cell built by TonnetzSystem.generateGrid at (row, col):
pitchClass is ((row * majorThirdInterval + col * fifthInterval) % 12 + 12) % 12
where % is the JavaScript remainder (Int.tmod), and noteName its table name. -/
def gridCell (row col : ℕ) : GridCell :=
  let pc : ℤ :=
    (((row : ℤ) * majorThirdInterval + (col : ℤ) * fifthInterval).tmod 12 + 12).tmod 12
  { pitchClass := pc, noteName := getNoteName pc }

/-- TonnetzSystem.generateGrid: the dense (gridHeight+1) x (gridWidth+1)
array of grid cells, in row-major order. -/
def generateGrid : List (List GridCell) :=
  (List.range (gridHeight + 1)).map fun row =>
    (List.range (gridWidth + 1)).map fun col => gridCell row col

/-- Local constant triWidth of TonnetzSystem.generateTriangles. -/
def triWidth : ℚ := triangleSize

/-- Local constant triHeight = triangleSize * sqrt 3 / 2 of
TonnetzSystem.generateTriangles, exactly: 0 + (triangleSize / 2) * sqrt 3. -/
def triHeight : QS3 := ⟨0, triangleSize / 2⟩

/-- The helper getVertexPosition of TonnetzSystem.generateTriangles:
x = col * triWidth + row * (triWidth / 2), z = row * triHeight
(the cumulative per-row shift rule). -/
def getVertexPosition (row col : ℕ) : P2 :=
  { x := QS3.ofRat ((col : ℚ) * triWidth + (row : ℚ) * (triWidth / 2)),
    z := QS3.ofRat (row : ℚ) * triHeight }

/-- The two triangles TonnetzSystem.generateTriangles pushes for the cell
(row, col): first the upward major triangle on vertices v0, v1, v2, then the
downward minor triangle on vertices v2, v1, v3. -/
def cellTriangles (row col : ℕ) : List Triangle :=
  let v0 := getVertexPosition row col
  let v1 := getVertexPosition row (col + 1)
  let v2 := getVertexPosition (row + 1) col
  let v3 := getVertexPosition (row + 1) (col + 1)
  let cell0 := gridCell row col
  let cell1 := gridCell row (col + 1)
  let cell2 := gridCell (row + 1) col
  let cell3 := gridCell (row + 1) (col + 1)
  let majorChord : List ℤ :=
    [60 + cell0.pitchClass, 60 + cell2.pitchClass, 60 + cell1.pitchClass]
  let minorChord : List ℤ :=
    [60 + cell2.pitchClass, 60 + cell1.pitchClass, 60 + cell3.pitchClass]
  [ { type := "major",
      vertices :=
        [ { x := v0.x, z := v0.z, pitchClass := cell0.pitchClass, noteName := cell0.noteName },
          { x := v1.x, z := v1.z, pitchClass := cell1.pitchClass, noteName := cell1.noteName },
          { x := v2.x, z := v2.z, pitchClass := cell2.pitchClass, noteName := cell2.noteName } ],
      center := { x := (v0.x + v1.x + v2.x).divRat 3, z := (v0.z + v1.z + v2.z).divRat 3 },
      chord := majorChord,
      chordName := cell0.noteName,
      row := row,
      col := col },
    { type := "minor",
      vertices :=
        [ { x := v2.x, z := v2.z, pitchClass := cell2.pitchClass, noteName := cell2.noteName },
          { x := v1.x, z := v1.z, pitchClass := cell1.pitchClass, noteName := cell1.noteName },
          { x := v3.x, z := v3.z, pitchClass := cell3.pitchClass, noteName := cell3.noteName } ],
      center := { x := (v2.x + v1.x + v3.x).divRat 3, z := (v2.z + v1.z + v3.z).divRat 3 },
      chord := minorChord,
      chordName := cell2.noteName ++ "m",
      row := row,
      col := col } ]

/-- TonnetzSystem.generateTriangles: the double loop over rows then columns,
emitting the major and minor triangles of each cell in order. -/
def generateTriangles : List Triangle :=
  (List.range gridHeight).flatMap fun row =>
    (List.range gridWidth).flatMap fun col => cellTriangles row col

/-- The centering offset offsetX of TonnetzGame.createTonnetzGrid:
-(gridWidth * triangleSize) / 2. -/
def offsetX : QS3 := QS3.ofRat (-((gridWidth : ℚ) * triangleSize) / 2)

/-- The centering offset offsetZ of TonnetzGame.createTonnetzGrid:
-(gridHeight * triHeight) / 2. -/
def offsetZ : QS3 := (-(QS3.ofRat (gridHeight : ℚ) * triHeight)).divRat 2

/-- The per-triangle mutation of TonnetzGame.createTonnetzGrid: the center
and every vertex are translated by (offsetX, offsetZ), other fields kept. -/
def translateTriangle (t : Triangle) : Triangle :=
  { t with
    center := { x := t.center.x + offsetX, z := t.center.z + offsetZ },
    vertices := t.vertices.map fun v =>
      { x := v.x + offsetX, z := v.z + offsetZ,
        pitchClass := v.pitchClass, noteName := v.noteName } }

/-- The triangle list after initialization completes: createTonnetzGrid runs
once over this.tonnetz.triangles and applies the centering translation to
each triangle; every later query reads this list unchanged. -/
def centeredTriangles : List Triangle :=
  generateTriangles.map translateTriangle

/-- The helper sign of TonnetzSystem.pointInTriangle:
(p1.x - p3.x) * (p2.z - p3.z) - (p2.x - p3.x) * (p1.z - p3.z). -/
def crossSign (p1 p2 p3 : P2) : QS3 :=
  (p1.x - p3.x) * (p2.z - p3.z) - (p2.x - p3.x) * (p1.z - p3.z)

/-- View a triangle vertex as a bare point. -/
def Vertex.toP2 (v : Vertex) : P2 := ⟨v.x, v.z⟩

/-- TonnetzSystem.pointInTriangle: the three signed areas against the
triangle edges, rejected exactly when some area is strictly negative and
some area is strictly positive. -/
def pointInTriangle (px pz : QS3) (t : Triangle) : Bool :=
  let v := t.vertices
  let p : P2 := ⟨px, pz⟩
  let d1 := crossSign p (v.getD 0 default).toP2 (v.getD 1 default).toP2
  let d2 := crossSign p (v.getD 1 default).toP2 (v.getD 2 default).toP2
  let d3 := crossSign p (v.getD 2 default).toP2 (v.getD 0 default).toP2
  let hasNeg := d1.isNeg || d2.isNeg || d3.isNeg
  let hasPos := d1.isPos || d2.isPos || d3.isPos
  !(hasNeg && hasPos)

/-- TonnetzSystem.findTriangleAtPosition: linear scan of this.triangles
(after initialization, the centered list), first containing triangle wins,
null when no triangle contains the point. -/
def findTriangleAtPosition (x z : QS3) : Option Triangle :=
  centeredTriangles.find? fun t => pointInTriangle x z t

/-- TonnetzSystem.getMajorTriad. In src/game.js the expression 60 + root
reads root = this.grid[row][col], which after the generateGrid rewrite is an
object, not a number; the arithmetic is modelled here on the numeric pitch
class of the cell, which is the behaviour of the numeric-grid variant of the
file (src/unnamed/part_000) and the only numeric reading of the expression. -/
def getMajorTriad (row col : ℕ) : List ℤ :=
  let root := (gridCell row col).pitchClass
  [60 + root, 60 + root + 4, 60 + root + 7]

/-- TonnetzSystem.getMinorTriad, modelled like getMajorTriad. -/
def getMinorTriad (row col : ℕ) : List ℤ :=
  let root := (gridCell row col).pitchClass
  [60 + root, 60 + root + 3, 60 + root + 7]

/-- Modelled from the spec (section 4.2): the major triad the tessellation
rules assign to the cell rooted at (row, col), with every note folded back
into the base octave. -/
def specMajorTriad (row col : ℕ) : List ℤ :=
  let pc := (gridCell row col).pitchClass
  [60 + pc, 60 + (pc + 4) % 12, 60 + (pc + 7) % 12]

/-- Modelled from the spec (section 4.2): the minor triad of the cell rooted
at (row, col), with every note folded back into the base octave. -/
def specMinorTriad (row col : ℕ) : List ℤ :=
  let pc := (gridCell row col).pitchClass
  [60 + pc, 60 + (pc + 3) % 12, 60 + (pc + 7) % 12]

/-!
Generic helper lemmas about the first-match scan.
-/

theorem find?_some_split {α : Type} (p : α → Bool) (l : List α) (x : α)
    (h : l.find? p = some x) :
    p x = true ∧ ∃ l1 l2, l = l1 ++ x :: l2 ∧ ∀ u ∈ l1, p u = false := by
  induction l with
  | nil => simp [List.find?] at h
  | cons b t ih =>
    cases hpb : p b with
    | true =>
      rw [List.find?_cons_of_pos _ hpb] at h
      cases h
      exact ⟨hpb, [], t, rfl, by simp⟩
    | false =>
      rw [List.find?_cons_of_neg _ (by simp [hpb])] at h
      obtain ⟨hx, l1, l2, hsplit, hall⟩ := ih h
      refine ⟨hx, b :: l1, l2, by rw [hsplit]; rfl, ?_⟩
      intro u hu
      cases hu with
      | head => exact hpb
      | tail _ hu => exact hall u hu

/-- C2: for every row in [0, gridHeight] and col in [0, gridWidth], the
pitchClass of the generated grid cell equals
((row * 4 + col * 7) mod 12 + 12) mod 12, hence is nonnegative and below 12. -/
theorem spec_C2 : ∀ row ≤ gridHeight, ∀ col ≤ gridWidth,
    ((generateGrid.getD row []).getD col default).pitchClass
        = (((row : ℤ) * 4 + (col : ℤ) * 7) % 12 + 12) % 12
    ∧ 0 ≤ ((generateGrid.getD row []).getD col default).pitchClass
    ∧ ((generateGrid.getD row []).getD col default).pitchClass < 12 := by
  decide

theorem spec_C2_witness :
    ((generateGrid.getD 1 []).getD 2 default).pitchClass
        = ((((1 : ℕ) : ℤ) * 4 + ((2 : ℕ) : ℤ) * 7) % 12 + 12) % 12
    ∧ 0 ≤ ((generateGrid.getD 1 []).getD 2 default).pitchClass
    ∧ ((generateGrid.getD 1 []).getD 2 default).pitchClass < 12 :=
  spec_C2 1 (by decide) 2 (by decide)

/-- C9: every generated triangle has exactly 3 vertices and a 3-note chord,
and each chord note lies in the MIDI range [60, 71]. -/
theorem spec_C9 : ∀ t ∈ generateTriangles,
    t.vertices.length = 3 ∧ t.chord.length = 3 ∧ ∀ n ∈ t.chord, 60 ≤ n ∧ n ≤ 71 := by
  decide

theorem spec_C9_witness :
    (generateTriangles.get ⟨0, by decide⟩).vertices.length = 3
    ∧ (generateTriangles.get ⟨0, by decide⟩).chord.length = 3
    ∧ ∀ n ∈ (generateTriangles.get ⟨0, by decide⟩).chord, 60 ≤ n ∧ n ≤ 71 :=
  spec_C9 (generateTriangles.get ⟨0, by decide⟩) (List.get_mem generateTriangles 0 (by decide))

/-- C10: the tessellation has exactly 2 * gridWidth * gridHeight = 192
triangles, enumerated in row-major cell order with the major triangle of each
cell immediately before its minor triangle, and every triangle carries
in-range row and col fields. -/
theorem spec_C10 :
    (generateTriangles.length = 2 * gridWidth * gridHeight
      ∧ generateTriangles.length = 192)
    ∧ (∀ row < gridHeight, ∀ col < gridWidth,
        ((generateTriangles.getD (2 * (row * gridWidth + col)) default).row = row
          ∧ (generateTriangles.getD (2 * (row * gridWidth + col)) default).col = col
          ∧ (generateTriangles.getD (2 * (row * gridWidth + col)) default).type = "major")
        ∧ ((generateTriangles.getD (2 * (row * gridWidth + col) + 1) default).row = row
          ∧ (generateTriangles.getD (2 * (row * gridWidth + col) + 1) default).col = col
          ∧ (generateTriangles.getD (2 * (row * gridWidth + col) + 1) default).type = "minor"))
    ∧ ∀ t ∈ generateTriangles, t.row < gridHeight ∧ t.col < gridWidth := by
  decide

theorem spec_C10_witness :
    ((generateTriangles.getD 26 default).row = 1
      ∧ (generateTriangles.getD 26 default).col = 1
      ∧ (generateTriangles.getD 26 default).type = "major")
    ∧ ((generateTriangles.getD 27 default).row = 1
      ∧ (generateTriangles.getD 27 default).col = 1
      ∧ (generateTriangles.getD 27 default).type = "minor") :=
  spec_C10.2.1 1 (by decide) 1 (by decide)

/-- C1: for every cell (row, col), the tessellation emits the major triangle
on cells (row,col), (row,col+1), (row+1,col) with chord (root, third, fifth)
= 60 + the pitch classes of (row,col), (row+1,col), (row,col+1) and name
noteName(pc(row,col)), followed by the minor triangle on cells (row+1,col),
(row,col+1), (row+1,col+1) with chord 60 + the pitch classes of (row+1,col),
(row,col+1), (row+1,col+1) and name noteName(pc(row+1,col)) ++ "m"; each
center is the arithmetic mean of the three vertex positions. -/
theorem spec_C1 : ∀ row < gridHeight, ∀ col < gridWidth,
    generateTriangles.getD (2 * (row * gridWidth + col)) default =
      { type := "major",
        vertices :=
          [ { x := (getVertexPosition row col).x, z := (getVertexPosition row col).z,
              pitchClass := (gridCell row col).pitchClass,
              noteName := (gridCell row col).noteName },
            { x := (getVertexPosition row (col + 1)).x, z := (getVertexPosition row (col + 1)).z,
              pitchClass := (gridCell row (col + 1)).pitchClass,
              noteName := (gridCell row (col + 1)).noteName },
            { x := (getVertexPosition (row + 1) col).x, z := (getVertexPosition (row + 1) col).z,
              pitchClass := (gridCell (row + 1) col).pitchClass,
              noteName := (gridCell (row + 1) col).noteName } ],
        center :=
          { x := ((getVertexPosition row col).x + (getVertexPosition row (col + 1)).x
                + (getVertexPosition (row + 1) col).x).divRat 3,
            z := ((getVertexPosition row col).z + (getVertexPosition row (col + 1)).z
                + (getVertexPosition (row + 1) col).z).divRat 3 },
        chord := [ 60 + (gridCell row col).pitchClass,
                   60 + (gridCell (row + 1) col).pitchClass,
                   60 + (gridCell row (col + 1)).pitchClass ],
        chordName := getNoteName (gridCell row col).pitchClass,
        row := row, col := col }
    ∧ generateTriangles.getD (2 * (row * gridWidth + col) + 1) default =
      { type := "minor",
        vertices :=
          [ { x := (getVertexPosition (row + 1) col).x, z := (getVertexPosition (row + 1) col).z,
              pitchClass := (gridCell (row + 1) col).pitchClass,
              noteName := (gridCell (row + 1) col).noteName },
            { x := (getVertexPosition row (col + 1)).x, z := (getVertexPosition row (col + 1)).z,
              pitchClass := (gridCell row (col + 1)).pitchClass,
              noteName := (gridCell row (col + 1)).noteName },
            { x := (getVertexPosition (row + 1) (col + 1)).x,
              z := (getVertexPosition (row + 1) (col + 1)).z,
              pitchClass := (gridCell (row + 1) (col + 1)).pitchClass,
              noteName := (gridCell (row + 1) (col + 1)).noteName } ],
        center :=
          { x := ((getVertexPosition (row + 1) col).x + (getVertexPosition row (col + 1)).x
                + (getVertexPosition (row + 1) (col + 1)).x).divRat 3,
            z := ((getVertexPosition (row + 1) col).z + (getVertexPosition row (col + 1)).z
                + (getVertexPosition (row + 1) (col + 1)).z).divRat 3 },
        chord := [ 60 + (gridCell (row + 1) col).pitchClass,
                   60 + (gridCell row (col + 1)).pitchClass,
                   60 + (gridCell (row + 1) (col + 1)).pitchClass ],
        chordName := getNoteName (gridCell (row + 1) col).pitchClass ++ "m",
        row := row, col := col } := by
  decide!

theorem spec_C1_witness :
    generateTriangles.getD 0 default =
      { type := "major",
        vertices :=
          [ { x := (getVertexPosition 0 0).x, z := (getVertexPosition 0 0).z,
              pitchClass := (gridCell 0 0).pitchClass, noteName := (gridCell 0 0).noteName },
            { x := (getVertexPosition 0 1).x, z := (getVertexPosition 0 1).z,
              pitchClass := (gridCell 0 1).pitchClass, noteName := (gridCell 0 1).noteName },
            { x := (getVertexPosition 1 0).x, z := (getVertexPosition 1 0).z,
              pitchClass := (gridCell 1 0).pitchClass, noteName := (gridCell 1 0).noteName } ],
        center :=
          { x := ((getVertexPosition 0 0).x + (getVertexPosition 0 1).x
                + (getVertexPosition 1 0).x).divRat 3,
            z := ((getVertexPosition 0 0).z + (getVertexPosition 0 1).z
                + (getVertexPosition 1 0).z).divRat 3 },
        chord := [ 60 + (gridCell 0 0).pitchClass, 60 + (gridCell 1 0).pitchClass,
                   60 + (gridCell 0 1).pitchClass ],
        chordName := getNoteName (gridCell 0 0).pitchClass,
        row := 0, col := 0 } :=
  (spec_C1 0 (by decide) 0 (by decide)).1

/-- C3: every grid vertex referenced by a triangle is placed, before the
centering translation, by the single cumulative-shift rule
position(row, col) = (col * triangleSize + row * (triangleSize / 2),
row * triangleSize * sqrt 3 / 2), applied uniformly through the one helper
getVertexPosition, so triangles sharing a grid vertex get equal coordinates. -/
theorem spec_C3 :
    (∀ row col : ℕ, getVertexPosition row col =
        { x := QS3.ofRat ((col : ℚ) * triangleSize + (row : ℚ) * (triangleSize / 2)),
          z := { a := 0, b := (row : ℚ) * (triangleSize / 2) } })
    ∧ (∀ row < gridHeight, ∀ col < gridWidth,
        ((generateTriangles.getD (2 * (row * gridWidth + col)) default).vertices.map Vertex.toP2
            = [getVertexPosition row col, getVertexPosition row (col + 1),
               getVertexPosition (row + 1) col])
        ∧ ((generateTriangles.getD (2 * (row * gridWidth + col) + 1) default).vertices.map
              Vertex.toP2
            = [getVertexPosition (row + 1) col, getVertexPosition row (col + 1),
               getVertexPosition (row + 1) (col + 1)])) := by
  constructor
  · intro row col
    refine P2.ext rfl (QS3.ext ?_ ?_)
    · show (QS3.ofRat (row : ℚ) * triHeight).a = 0
      simp [QS3.mul_def, QS3.ofRat, triHeight]
    · show (QS3.ofRat (row : ℚ) * triHeight).b = (row : ℚ) * (triangleSize / 2)
      simp [QS3.mul_def, QS3.ofRat, triHeight]
  · decide!

theorem spec_C3_witness :
    ((generateTriangles.getD 2 default).vertices.map Vertex.toP2
        = [getVertexPosition 0 1, getVertexPosition 0 2, getVertexPosition 1 1])
    ∧ ((generateTriangles.getD 3 default).vertices.map Vertex.toP2
        = [getVertexPosition 1 1, getVertexPosition 0 2, getVertexPosition 1 2]) :=
  spec_C3.2 0 (by decide) 1 (by decide)

/-- C7: after initialization, every triangle of the final list equals the
as-built triangle translated once by the global offset
(-gridWidth * triangleSize / 2, -gridHeight * (triangleSize * sqrt 3 / 2) / 2)
on its center and every vertex, with all pitch data and chords unchanged;
the later point-location queries read this list without rebuilding it. -/
theorem spec_C7 :
    (offsetX = QS3.ofRat (-((gridWidth : ℚ) * triangleSize) / 2)
      ∧ offsetZ = { a := 0, b := -((gridHeight : ℚ) * (triangleSize / 2)) / 2 })
    ∧ centeredTriangles.length = generateTriangles.length
    ∧ ∀ i < generateTriangles.length,
        (centeredTriangles.getD i default).center
            = { x := (generateTriangles.getD i default).center.x + offsetX,
                z := (generateTriangles.getD i default).center.z + offsetZ }
        ∧ (centeredTriangles.getD i default).vertices
            = (generateTriangles.getD i default).vertices.map (fun v =>
                { x := v.x + offsetX, z := v.z + offsetZ,
                  pitchClass := v.pitchClass, noteName := v.noteName })
        ∧ (centeredTriangles.getD i default).type = (generateTriangles.getD i default).type
        ∧ (centeredTriangles.getD i default).chord = (generateTriangles.getD i default).chord
        ∧ (centeredTriangles.getD i default).chordName
            = (generateTriangles.getD i default).chordName
        ∧ (centeredTriangles.getD i default).row = (generateTriangles.getD i default).row
        ∧ (centeredTriangles.getD i default).col = (generateTriangles.getD i default).col := by
  decide!

theorem spec_C7_witness :
    (centeredTriangles.getD 0 default).center
        = { x := (generateTriangles.getD 0 default).center.x + offsetX,
            z := (generateTriangles.getD 0 default).center.z + offsetZ }
    ∧ (centeredTriangles.getD 0 default).vertices
        = (generateTriangles.getD 0 default).vertices.map (fun v =>
            { x := v.x + offsetX, z := v.z + offsetZ,
              pitchClass := v.pitchClass, noteName := v.noteName })
    ∧ (centeredTriangles.getD 0 default).type = (generateTriangles.getD 0 default).type
    ∧ (centeredTriangles.getD 0 default).chord = (generateTriangles.getD 0 default).chord
    ∧ (centeredTriangles.getD 0 default).chordName
        = (generateTriangles.getD 0 default).chordName
    ∧ (centeredTriangles.getD 0 default).row = (generateTriangles.getD 0 default).row
    ∧ (centeredTriangles.getD 0 default).col = (generateTriangles.getD 0 default).col :=
  spec_C7.2.2 0 (by decide)

/-- C5: findTriangleAtPosition scans the triangle list in order and returns
the first triangle whose point-in-triangle test accepts the query point; it
returns none exactly when no triangle in the list contains the point, and in
particular the far probe (10000, 10000) yields none. -/
theorem spec_C5 :
    (∀ x z : QS3, findTriangleAtPosition x z = none ↔
        ∀ t ∈ centeredTriangles, pointInTriangle x z t = false)
    ∧ (∀ x z : QS3, ∀ t : Triangle, findTriangleAtPosition x z = some t →
        pointInTriangle x z t = true
        ∧ ∃ l1 l2, centeredTriangles = l1 ++ t :: l2
            ∧ ∀ u ∈ l1, pointInTriangle x z u = false)
    ∧ findTriangleAtPosition (QS3.ofRat 10000) (QS3.ofRat 10000) = none := by
  refine ⟨?_, ?_, by decide!⟩
  · intro x z
    rw [findTriangleAtPosition, List.find?_eq_none]
    constructor
    · intro h t ht
      have := h t ht
      simpa using this
    · intro h t ht
      simp [h t ht]
  · intro x z t h
    exact find?_some_split _ _ _ h

theorem spec_C5_witness :
    pointInTriangle (centeredTriangles.getD 0 default).center.x
        (centeredTriangles.getD 0 default).center.z (centeredTriangles.getD 0 default) = true
    ∧ ∃ l1 l2, centeredTriangles = l1 ++ (centeredTriangles.getD 0 default) :: l2
        ∧ ∀ u ∈ l1, pointInTriangle (centeredTriangles.getD 0 default).center.x
            (centeredTriangles.getD 0 default).center.z u = false :=
  spec_C5.2.1 (centeredTriangles.getD 0 default).center.x
    (centeredTriangles.getD 0 default).center.z
    (centeredTriangles.getD 0 default) (by decide!)

/-- C8: the ChordModel functions do not return the section 4.2 chords. The
code builds the major triad as root, root+4, root+7 and the minor triad as
root, root+3, root+7 without folding back into the octave, so at the cell
(row, col) = (0, 1), whose pitch class is 7, getMajorTriad returns
[67, 71, 74] while the section 4.2 rule and the tessellation chord of the
major triangle at that cell are [67, 71, 62]; in src/game.js the functions
are stale besides, reading the object-valued grid cell as a number. -/
theorem spec_C8_bug :
    getMajorTriad 0 1 = [67, 71, 74]
    ∧ specMajorTriad 0 1 = [67, 71, 62]
    ∧ (generateTriangles.getD 2 default).type = "major"
    ∧ (generateTriangles.getD 2 default).row = 0
    ∧ (generateTriangles.getD 2 default).col = 1
    ∧ (generateTriangles.getD 2 default).chord = [67, 71, 62]
    ∧ getMajorTriad 0 1 ≠ (generateTriangles.getD 2 default).chord
    ∧ getMinorTriad 0 1 = [67, 70, 74]
    ∧ specMinorTriad 0 1 = [67, 70, 62]
    ∧ getMinorTriad 0 1 ≠ specMinorTriad 0 1 := by
  decide


/-!
Integer fast path for the centroid self-containment property.  All centered
triangle coordinates are half-integers (x) and half-integer multiples of
sqrt 3 (z), so the point-in-triangle test on centers reduces to integer
cross products in doubled coordinates, which the kernel evaluates cheaply.
-/

/-- Integer image of a tessellation triangle in doubled coordinates: a field
value k stands for the coordinate k / 2 (x) or (k / 2) * sqrt 3 (z). -/
structure ITri where
  ax : ℤ
  az : ℤ
  bx : ℤ
  bz : ℤ
  cx : ℤ
  cz : ℤ
  mx : ℤ
  mz : ℤ
  row : ℕ
  col : ℕ
  minor : Bool
deriving DecidableEq

instance : Inhabited ITri := ⟨⟨0, 0, 0, 0, 0, 0, 0, 0, 0, 0, false⟩⟩

/-- Integer cross product mirroring the sign helper of pointInTriangle. -/
def icross (p1x p1z p2x p2z p3x p3z : ℤ) : ℤ :=
  (p1x - p3x) * (p2z - p3z) - (p2x - p3x) * (p1z - p3z)

/-- Integer point-in-triangle test mirroring pointInTriangle in the doubled
coordinates. -/
def ipit (px pz ax az bx bz cx cz : ℤ) : Bool :=
  let d1 := icross px pz ax az bx bz
  let d2 := icross px pz bx bz cx cz
  let d3 := icross px pz cx cz ax az
  let hasNeg := decide (d1 < 0) || decide (d2 < 0) || decide (d3 < 0)
  let hasPos := decide (0 < d1) || decide (0 < d2) || decide (0 < d3)
  !(hasNeg && hasPos)

def ipitT (px pz : ℤ) (it : ITri) : Bool :=
  ipit px pz it.ax it.az it.bx it.bz it.cx it.cz

/-- Rational point-in-triangle test on the coordinate components, the middle
step between pointInTriangle and the integer test. -/
def qpit (pa pb a0 b0 a1 b1 a2 b2 : ℚ) : Bool :=
  let d1 := (pa - a1) * (b0 - b1) - (a0 - a1) * (pb - b1)
  let d2 := (pa - a2) * (b1 - b2) - (a1 - a2) * (pb - b2)
  let d3 := (pa - a0) * (b2 - b0) - (a2 - a0) * (pb - b0)
  let hasNeg := decide (d1 < 0) || decide (d2 < 0) || decide (d3 < 0)
  let hasPos := decide (0 < d1) || decide (0 < d2) || decide (0 < d3)
  !(hasNeg && hasPos)

/-- A rational number is a half-integer when twice it has denominator 1. -/
def isHalfInt (q : ℚ) : Bool := (q * 2).den == 1

/-- The doubled integer value of a half-integer rational. -/
def dbl (q : ℚ) : ℤ := (q * 2).num

theorem halfInt_eq (q : ℚ) (h : isHalfInt q = true) : q = (dbl q : ℚ) / 2 := by
  rw [isHalfInt, beq_iff_eq] at h
  have h2 : ((q * 2).num : ℚ) = q * 2 := Rat.coe_int_num_of_den_eq_one h
  rw [dbl, h2]
  ring

/-- Wellformedness of a point for the integer fast path: the x coordinate is
purely rational, the z coordinate purely a multiple of sqrt 3, and both are
half-integers. -/
def P2wf (p : P2) : Bool :=
  p.x.b == 0 && p.z.a == 0 && isHalfInt p.x.a && isHalfInt p.z.b

/-- Wellformedness of a triangle for the integer fast path. -/
def Triangle.wf (t : Triangle) : Bool :=
  match t.vertices with
  | [v0, v1, v2] =>
      P2wf v0.toP2 && P2wf v1.toP2 && P2wf v2.toP2 && P2wf t.center
        && (t.type == "major" || t.type == "minor")
  | _ => false

/-- The integer image of a triangle, extracting the doubled coordinates. -/
def tri2i (t : Triangle) : ITri :=
  { ax := dbl (t.vertices.getD 0 default).x.a, az := dbl (t.vertices.getD 0 default).z.b,
    bx := dbl (t.vertices.getD 1 default).x.a, bz := dbl (t.vertices.getD 1 default).z.b,
    cx := dbl (t.vertices.getD 2 default).x.a, cz := dbl (t.vertices.getD 2 default).z.b,
    mx := dbl t.center.x.a, mz := dbl t.center.z.b,
    row := t.row, col := t.col, minor := t.type == "minor" }

/-- The integer images of the 192 centered triangles, generated directly by
the integer lattice formulas; iList_eq checks them against the program. -/
def iTriangles : List ITri :=
  (List.range gridHeight).flatMap fun r =>
    (List.range gridWidth).flatMap fun c =>
      [ { ax := 6 * (c : ℤ) + 3 * (r : ℤ) - 36, az := 3 * (r : ℤ) - 12,
          bx := 6 * (c : ℤ) + 3 * (r : ℤ) - 30, bz := 3 * (r : ℤ) - 12,
          cx := 6 * (c : ℤ) + 3 * (r : ℤ) - 33, cz := 3 * (r : ℤ) - 9,
          mx := 6 * (c : ℤ) + 3 * (r : ℤ) - 33, mz := 3 * (r : ℤ) - 11,
          row := r, col := c, minor := false },
        { ax := 6 * (c : ℤ) + 3 * (r : ℤ) - 33, az := 3 * (r : ℤ) - 9,
          bx := 6 * (c : ℤ) + 3 * (r : ℤ) - 30, bz := 3 * (r : ℤ) - 12,
          cx := 6 * (c : ℤ) + 3 * (r : ℤ) - 27, cz := 3 * (r : ℤ) - 9,
          mx := 6 * (c : ℤ) + 3 * (r : ℤ) - 30, mz := 3 * (r : ℤ) - 10,
          row := r, col := c, minor := true } ]

theorem allWF : centeredTriangles.all Triangle.wf = true := by decide!

theorem iList_eq : centeredTriangles.map tri2i = iTriangles := by decide!

/-- The integer counterpart of the centroid self-containment scan, over a
given chunk of the triangle list (chunking keeps the kernel evaluation of
each piece small). -/
def ifindCheckOn (l : List ITri) : Bool :=
  l.all fun it =>
    match iTriangles.find? (fun ut => ipitT it.mx it.mz ut) with
    | some ut => ut.row == it.row && ut.col == it.col && ut.minor == it.minor
    | none => false

/-- The integer counterpart of the centroid self-containment scan. -/
def ifindCheck : Bool := ifindCheckOn iTriangles

theorem ifc0 : ifindCheckOn (iTriangles.take 24) = true := by decide!

theorem ifc1 : ifindCheckOn ((iTriangles.drop 24).take 24) = true := by decide!

theorem ifc2 : ifindCheckOn ((iTriangles.drop 48).take 24) = true := by decide!

theorem ifc3 : ifindCheckOn ((iTriangles.drop 72).take 24) = true := by decide!

theorem ifc4 : ifindCheckOn ((iTriangles.drop 96).take 24) = true := by decide!

theorem ifc5 : ifindCheckOn ((iTriangles.drop 120).take 24) = true := by decide!

theorem ifc6 : ifindCheckOn ((iTriangles.drop 144).take 24) = true := by decide!

theorem ifc7 : ifindCheckOn ((iTriangles.drop 168).take 24) = true := by decide!

theorem ifindCheck_true : ifindCheck = true := by
  have hsplit : ∀ (l : List ITri) (n : ℕ),
      ifindCheckOn l = (ifindCheckOn (l.take n) && ifindCheckOn (l.drop n)) := by
    intro l n
    rw [ifindCheckOn, ifindCheckOn, ifindCheckOn, ← List.all_append, List.take_append_drop]
  have e48 : (iTriangles.drop 24).drop 24 = iTriangles.drop 48 := by
    rw [List.drop_drop]
  have e72 : (iTriangles.drop 48).drop 24 = iTriangles.drop 72 := by
    rw [List.drop_drop]
  have e96 : (iTriangles.drop 72).drop 24 = iTriangles.drop 96 := by
    rw [List.drop_drop]
  have e120 : (iTriangles.drop 96).drop 24 = iTriangles.drop 120 := by
    rw [List.drop_drop]
  have e144 : (iTriangles.drop 120).drop 24 = iTriangles.drop 144 := by
    rw [List.drop_drop]
  have e168 : (iTriangles.drop 144).drop 24 = iTriangles.drop 168 := by
    rw [List.drop_drop]
  have elast : ifindCheckOn (iTriangles.drop 168) = true := by
    rw [hsplit (iTriangles.drop 168) 24, ifc7]
    have : (iTriangles.drop 168).drop 24 = [] := by decide!
    rw [this]
    rfl
  rw [ifindCheck, hsplit iTriangles 24, ifc0,
    hsplit (iTriangles.drop 24) 24, ifc1, e48,
    hsplit (iTriangles.drop 48) 24, ifc2, e72,
    hsplit (iTriangles.drop 72) 24, ifc3, e96,
    hsplit (iTriangles.drop 96) 24, ifc4, e120,
    hsplit (iTriangles.drop 120) 24, ifc5, e144,
    hsplit (iTriangles.drop 144) 24, ifc6, e168, elast]
  rfl

theorem crossSign_rect (pa pb qa qb ra rb : ℚ) :
    crossSign ⟨⟨pa, 0⟩, ⟨0, pb⟩⟩ ⟨⟨qa, 0⟩, ⟨0, qb⟩⟩ ⟨⟨ra, 0⟩, ⟨0, rb⟩⟩
      = ⟨0, (pa - ra) * (qb - rb) - (qa - ra) * (pb - rb)⟩ := by
  refine QS3.ext ?_ ?_ <;>
    simp only [crossSign, QS3.sub_def, QS3.mul_def] <;> ring

theorem isPos_bcoef (c : ℚ) : QS3.isPos ⟨0, c⟩ = decide (0 < c) := by
  by_cases h : (0 : ℚ) ≤ c
  · simp only [QS3.isPos, le_refl, if_true, h]
    exact decide_eq_decide.mpr (by constructor <;> intro h' <;> [skip; exact Or.inr h'] <;>
      rcases h' with h' | h' <;> [exact absurd h' (lt_irrefl 0); exact h'])
  · simp only [QS3.isPos, le_refl, if_true, h, if_false]
    exact decide_eq_decide.mpr (by constructor <;> intro h' <;> [nlinarith; nlinarith])

theorem isNeg_bcoef (c : ℚ) : QS3.isNeg ⟨0, c⟩ = decide (c < 0) := by
  have h1 : QS3.isNeg ⟨0, c⟩ = QS3.isPos ⟨0, -c⟩ := by
    simp only [QS3.isNeg, neg_zero]
  rw [h1, isPos_bcoef]
  exact decide_eq_decide.mpr (by constructor <;> intro h' <;> linarith)

theorem P2wf_destruct (p : P2) (h : P2wf p = true) :
    p.x.b = 0 ∧ p.z.a = 0 ∧ isHalfInt p.x.a = true ∧ isHalfInt p.z.b = true := by
  simp only [P2wf, Bool.and_eq_true, beq_iff_eq] at h
  exact ⟨h.1.1.1, h.1.1.2, h.1.2, h.2⟩

theorem wf_destruct (t : Triangle) (h : t.wf = true) :
    ∃ v0 v1 v2, t.vertices = [v0, v1, v2]
      ∧ P2wf v0.toP2 = true ∧ P2wf v1.toP2 = true ∧ P2wf v2.toP2 = true
      ∧ P2wf t.center = true ∧ (t.type = "major" ∨ t.type = "minor") := by
  rcases hv : t.vertices with _ | ⟨v0, _ | ⟨v1, _ | ⟨v2, _ | ⟨v3, rest⟩⟩⟩⟩ <;>
    rw [Triangle.wf, hv] at h
  · simp at h
  · simp at h
  · simp at h
  · refine ⟨v0, v1, v2, rfl, ?_⟩
    simp only [Bool.and_eq_true, Bool.or_eq_true, beq_iff_eq] at h
    exact ⟨h.1.1.1.1, h.1.1.1.2, h.1.1.2, h.1.2, h.2⟩
  · simp at h

theorem find?_congr {α : Type} (p q : α → Bool) (l : List α)
    (h : ∀ x ∈ l, p x = q x) : l.find? p = l.find? q := by
  induction l with
  | nil => rfl
  | cons b t ih =>
    have hb := h b (List.mem_cons_self b t)
    rw [List.find?_cons, List.find?_cons, hb, ih fun x hx => h x (List.mem_cons_of_mem b hx)]

theorem qpit_int (px pz a0 b0 a1 b1 a2 b2 : ℤ) :
    qpit ((px : ℚ) / 2) ((pz : ℚ) / 2) ((a0 : ℚ) / 2) ((b0 : ℚ) / 2)
        ((a1 : ℚ) / 2) ((b1 : ℚ) / 2) ((a2 : ℚ) / 2) ((b2 : ℚ) / 2)
      = ipit px pz a0 b0 a1 b1 a2 b2 := by
  have key : ∀ X1 Z1 X2 Z2 X3 Z3 : ℤ,
      (((X1 : ℚ) / 2 - X3 / 2) * ((Z2 : ℚ) / 2 - Z3 / 2)
        - ((X2 : ℚ) / 2 - X3 / 2) * ((Z1 : ℚ) / 2 - Z3 / 2))
      = (icross X1 Z1 X2 Z2 X3 Z3 : ℚ) / 4 := by
    intro X1 Z1 X2 Z2 X3 Z3
    rw [icross]
    push_cast
    ring
  have sgn : ∀ k : ℤ, (decide ((k : ℚ) / 4 < 0) = decide (k < 0))
      ∧ (decide (0 < (k : ℚ) / 4) = decide (0 < k)) := by
    intro k
    constructor <;> refine decide_eq_decide.mpr ?_ <;> constructor <;> intro h'
    · exact_mod_cast (by linarith : (k : ℚ) < 0)
    · have hk : (k : ℚ) < 0 := by exact_mod_cast h'
      linarith
    · exact_mod_cast (by linarith : (0 : ℚ) < (k : ℚ))
    · have hk : (0 : ℚ) < (k : ℚ) := by exact_mod_cast h'
      linarith
  rw [qpit, ipit]
  rw [key px pz a0 b0 a1 b1, key px pz a1 b1 a2 b2, key px pz a2 b2 a0 b0]
  rw [(sgn _).1, (sgn _).1, (sgn _).1, (sgn _).2, (sgn _).2, (sgn _).2]

theorem pointInTriangle_three (px pz : QS3) (t : Triangle) (v0 v1 v2 : Vertex)
    (hv : t.vertices = [v0, v1, v2]) :
    pointInTriangle px pz t =
      (!(((crossSign ⟨px, pz⟩ v0.toP2 v1.toP2).isNeg
          || (crossSign ⟨px, pz⟩ v1.toP2 v2.toP2).isNeg
          || (crossSign ⟨px, pz⟩ v2.toP2 v0.toP2).isNeg)
        && ((crossSign ⟨px, pz⟩ v0.toP2 v1.toP2).isPos
          || (crossSign ⟨px, pz⟩ v1.toP2 v2.toP2).isPos
          || (crossSign ⟨px, pz⟩ v2.toP2 v0.toP2).isPos))) := by
  rw [pointInTriangle, hv]
  rfl

theorem pit_rect (pa pb : ℚ) (t : Triangle) (v0 v1 v2 : Vertex)
    (hv : t.vertices = [v0, v1, v2])
    (h0x : v0.x = ⟨(v0.x.a : ℚ), 0⟩) (h0z : v0.z = ⟨0, v0.z.b⟩)
    (h1x : v1.x = ⟨(v1.x.a : ℚ), 0⟩) (h1z : v1.z = ⟨0, v1.z.b⟩)
    (h2x : v2.x = ⟨(v2.x.a : ℚ), 0⟩) (h2z : v2.z = ⟨0, v2.z.b⟩) :
    pointInTriangle ⟨pa, 0⟩ ⟨0, pb⟩ t
      = qpit pa pb v0.x.a v0.z.b v1.x.a v1.z.b v2.x.a v2.z.b := by
  have e0 : v0.toP2 = ⟨⟨v0.x.a, 0⟩, ⟨0, v0.z.b⟩⟩ := P2.ext h0x h0z
  have e1 : v1.toP2 = ⟨⟨v1.x.a, 0⟩, ⟨0, v1.z.b⟩⟩ := P2.ext h1x h1z
  have e2 : v2.toP2 = ⟨⟨v2.x.a, 0⟩, ⟨0, v2.z.b⟩⟩ := P2.ext h2x h2z
  rw [pointInTriangle_three _ _ t v0 v1 v2 hv, e0, e1, e2,
    crossSign_rect, crossSign_rect, crossSign_rect,
    isNeg_bcoef, isNeg_bcoef, isNeg_bcoef, isPos_bcoef, isPos_bcoef, isPos_bcoef]
  rfl

theorem dbl_half (k : ℤ) : dbl ((k : ℚ) / 2) = k := by
  rw [dbl, div_mul_cancel₀ _ (two_ne_zero)]
  exact Rat.num_intCast k

theorem pit_wf (px pz : QS3) (u : Triangle) (hu : u.wf = true)
    (hpxb : px.b = 0) (hpza : pz.a = 0)
    (hpx : isHalfInt px.a = true) (hpz : isHalfInt pz.b = true) :
    pointInTriangle px pz u = ipitT (dbl px.a) (dbl pz.b) (tri2i u) := by
  obtain ⟨v0, v1, v2, hv, hw0, hw1, hw2, hwc, htype⟩ := wf_destruct u hu
  obtain ⟨h0xb, h0za, h0xh, h0zh⟩ := P2wf_destruct _ hw0
  obtain ⟨h1xb, h1za, h1xh, h1zh⟩ := P2wf_destruct _ hw1
  obtain ⟨h2xb, h2za, h2xh, h2zh⟩ := P2wf_destruct _ hw2
  have h0x : v0.x = ⟨v0.x.a, 0⟩ := QS3.ext rfl h0xb
  have h0z : v0.z = ⟨0, v0.z.b⟩ := QS3.ext h0za rfl
  have h1x : v1.x = ⟨v1.x.a, 0⟩ := QS3.ext rfl h1xb
  have h1z : v1.z = ⟨0, v1.z.b⟩ := QS3.ext h1za rfl
  have h2x : v2.x = ⟨v2.x.a, 0⟩ := QS3.ext rfl h2xb
  have h2z : v2.z = ⟨0, v2.z.b⟩ := QS3.ext h2za rfl
  have main := pit_rect px.a pz.b u v0 v1 v2 hv h0x h0z h1x h1z h2x h2z
  have epx : px = ⟨px.a, 0⟩ := QS3.ext rfl hpxb
  have epz : pz = ⟨0, pz.b⟩ := QS3.ext hpza rfl
  rw [← epx, ← epz] at main
  rw [main]
  have g0 : u.vertices.getD 0 default = v0 := by rw [hv]; rfl
  have g1 : u.vertices.getD 1 default = v1 := by rw [hv]; rfl
  have g2 : u.vertices.getD 2 default = v2 := by rw [hv]; rfl
  simp only [ipitT, tri2i, g0, g1, g2]
  obtain ⟨PA, hPA⟩ : ∃ k : ℤ, px.a = (k : ℚ) / 2 := ⟨dbl px.a, halfInt_eq _ hpx⟩
  obtain ⟨PB, hPB⟩ : ∃ k : ℤ, pz.b = (k : ℚ) / 2 := ⟨dbl pz.b, halfInt_eq _ hpz⟩
  obtain ⟨A0, hA0⟩ : ∃ k : ℤ, v0.x.a = (k : ℚ) / 2 := ⟨dbl v0.x.a, halfInt_eq _ h0xh⟩
  obtain ⟨B0, hB0⟩ : ∃ k : ℤ, v0.z.b = (k : ℚ) / 2 := ⟨dbl v0.z.b, halfInt_eq _ h0zh⟩
  obtain ⟨A1, hA1⟩ : ∃ k : ℤ, v1.x.a = (k : ℚ) / 2 := ⟨dbl v1.x.a, halfInt_eq _ h1xh⟩
  obtain ⟨B1, hB1⟩ : ∃ k : ℤ, v1.z.b = (k : ℚ) / 2 := ⟨dbl v1.z.b, halfInt_eq _ h1zh⟩
  obtain ⟨A2, hA2⟩ : ∃ k : ℤ, v2.x.a = (k : ℚ) / 2 := ⟨dbl v2.x.a, halfInt_eq _ h2xh⟩
  obtain ⟨B2, hB2⟩ : ∃ k : ℤ, v2.z.b = (k : ℚ) / 2 := ⟨dbl v2.z.b, halfInt_eq _ h2zh⟩
  rw [hPA, hPB, hA0, hB0, hA1, hB1, hA2, hB2]
  simp only [dbl_half]
  exact qpit_int PA PB A0 B0 A1 B1 A2 B2

/-- C6: for every triangle of the final centered list, locating its own
center with findTriangleAtPosition returns a triangle with the same
(row, col, type) key. -/
theorem spec_C6 : ∀ t ∈ centeredTriangles,
    ∃ u, findTriangleAtPosition t.center.x t.center.z = some u
      ∧ u.row = t.row ∧ u.col = t.col ∧ u.type = t.type := by
  intro t ht
  have hAll := allWF
  rw [List.all_eq_true] at hAll
  have hwt : t.wf = true := hAll t ht
  obtain ⟨tv0, tv1, tv2, htv, _, _, _, hwc, htype⟩ := wf_destruct t hwt
  obtain ⟨hcxb, hcza, hcxh, hczh⟩ := P2wf_destruct _ hwc
  have htrans : ∀ u ∈ centeredTriangles,
      pointInTriangle t.center.x t.center.z u
        = ipitT (dbl t.center.x.a) (dbl t.center.z.b) (tri2i u) :=
    fun u hu => pit_wf _ _ u (hAll u hu) hcxb hcza hcxh hczh
  have hfind : findTriangleAtPosition t.center.x t.center.z
      = centeredTriangles.find? fun u =>
          ipitT (dbl t.center.x.a) (dbl t.center.z.b) (tri2i u) := by
    rw [findTriangleAtPosition]
    exact find?_congr _ _ _ htrans
  have hmap := List.find?_map tri2i centeredTriangles
    (p := fun iu => ipitT (dbl t.center.x.a) (dbl t.center.z.b) iu)
  rw [iList_eq] at hmap
  have hmem : tri2i t ∈ iTriangles := by
    rw [← iList_eq]
    exact List.mem_map_of_mem tri2i ht
  have hic := ifindCheck_true
  rw [ifindCheck, ifindCheckOn, List.all_eq_true] at hic
  have h2 := hic (tri2i t) hmem
  rcases hif : iTriangles.find? (fun ut => ipitT (tri2i t).mx (tri2i t).mz ut) with _ | iu
  · rw [hif] at h2
    simp at h2
  · rw [hif] at h2
    simp only [Bool.and_eq_true, beq_iff_eq] at h2
    have hmx : (tri2i t).mx = dbl t.center.x.a := rfl
    have hmz : (tri2i t).mz = dbl t.center.z.b := rfl
    rw [hmx, hmz] at hif
    rw [hif] at hmap
    obtain ⟨u, hu_eq, hu_tri⟩ := Option.map_eq_some'.mp hmap.symm
    have hu_mem : u ∈ centeredTriangles := List.mem_of_find?_eq_some hu_eq
    have hwu : u.wf = true := hAll u hu_mem
    obtain ⟨uv0, uv1, uv2, huv, _, _, _, _, hutype⟩ := wf_destruct u hwu
    refine ⟨u, ?_, ?_, ?_, ?_⟩
    · rw [hfind]
      exact hu_eq
    · calc u.row = (tri2i u).row := rfl
        _ = iu.row := by rw [hu_tri]
        _ = (tri2i t).row := h2.1.1
        _ = t.row := rfl
    · calc u.col = (tri2i u).col := rfl
        _ = iu.col := by rw [hu_tri]
        _ = (tri2i t).col := h2.1.2
        _ = t.col := rfl
    · have hflag : (u.type == "minor") = (t.type == "minor") := by
        calc (u.type == "minor") = (tri2i u).minor := rfl
          _ = iu.minor := by rw [hu_tri]
          _ = (tri2i t).minor := h2.2
          _ = (t.type == "minor") := rfl
      rcases htype with ht1 | ht1 <;> rcases hutype with hu1 | hu1 <;>
        rw [ht1, hu1] <;> rw [ht1, hu1] at hflag <;> first | rfl | simp at hflag

theorem spec_C6_witness :
    ∃ u, findTriangleAtPosition (centeredTriangles.get ⟨0, by decide⟩).center.x
        (centeredTriangles.get ⟨0, by decide⟩).center.z = some u
      ∧ u.row = (centeredTriangles.get ⟨0, by decide⟩).row
      ∧ u.col = (centeredTriangles.get ⟨0, by decide⟩).col
      ∧ u.type = (centeredTriangles.get ⟨0, by decide⟩).type :=
  spec_C6 (centeredTriangles.get ⟨0, by decide⟩)
    (List.get_mem centeredTriangles 0 (by decide))

/-!
Real-number semantics of the point-in-triangle test, for the sign-condition
specification of pointInTriangle.
-/

/-- The cross product of the specification, over the real numbers:
cross(p1, p2, p3) = (p1.x - p3.x)(p2.z - p3.z) - (p2.x - p3.x)(p1.z - p3.z). -/
def crossR (p1x p1z p2x p2z p3x p3z : ℝ) : ℝ :=
  (p1x - p3x) * (p2z - p3z) - (p2x - p3x) * (p1z - p3z)

theorem crossSign_toReal (p1 p2 p3 : P2) :
    (crossSign p1 p2 p3).toReal
      = crossR p1.x.toReal p1.z.toReal p2.x.toReal p2.z.toReal p3.x.toReal p3.z.toReal := by
  simp [crossSign, crossR, QS3.toReal_sub, QS3.toReal_mul]

/-- Mixed-sign condition on the three signed areas: some strictly negative
together with some strictly positive. -/
def mixedSigns (d1 d2 d3 : ℝ) : Prop :=
  (d1 < 0 ∨ d2 < 0 ∨ d3 < 0) ∧ (0 < d1 ∨ 0 < d2 ∨ 0 < d3)

theorem pointInTriangle_iff_signs (px pz : QS3) (t : Triangle) (v0 v1 v2 : Vertex)
    (hv : t.vertices = [v0, v1, v2]) :
    pointInTriangle px pz t = true ↔
      ¬ mixedSigns
        (crossR px.toReal pz.toReal v0.x.toReal v0.z.toReal v1.x.toReal v1.z.toReal)
        (crossR px.toReal pz.toReal v1.x.toReal v1.z.toReal v2.x.toReal v2.z.toReal)
        (crossR px.toReal pz.toReal v2.x.toReal v2.z.toReal v0.x.toReal v0.z.toReal) := by
  have boolLem : ∀ a b c d e f : Bool,
      ((!((a || b || c) && (d || e || f))) = true)
        ↔ ¬((a = true ∨ b = true ∨ c = true) ∧ (d = true ∨ e = true ∨ f = true)) := by
    decide
  have c1 := crossSign_toReal ⟨px, pz⟩ v0.toP2 v1.toP2
  have c2 := crossSign_toReal ⟨px, pz⟩ v1.toP2 v2.toP2
  have c3 := crossSign_toReal ⟨px, pz⟩ v2.toP2 v0.toP2
  have n1 := QS3.isNeg_iff (crossSign ⟨px, pz⟩ v0.toP2 v1.toP2)
  have n2 := QS3.isNeg_iff (crossSign ⟨px, pz⟩ v1.toP2 v2.toP2)
  have n3 := QS3.isNeg_iff (crossSign ⟨px, pz⟩ v2.toP2 v0.toP2)
  have p1 := QS3.isPos_iff (crossSign ⟨px, pz⟩ v0.toP2 v1.toP2)
  have p2 := QS3.isPos_iff (crossSign ⟨px, pz⟩ v1.toP2 v2.toP2)
  have p3 := QS3.isPos_iff (crossSign ⟨px, pz⟩ v2.toP2 v0.toP2)
  rw [c1] at n1 p1
  rw [c2] at n2 p2
  rw [c3] at n3 p3
  rw [pointInTriangle_three px pz t v0 v1 v2 hv, mixedSigns,
    boolLem _ _ _ _ _ _, n1, n2, n3, p1, p2, p3]
  exact Iff.rfl

theorem mixedSigns_rotate (d1 d2 d3 : ℝ) : mixedSigns d1 d2 d3 ↔ mixedSigns d2 d3 d1 := by
  rw [mixedSigns, mixedSigns]
  tauto

theorem edge_not_mixed (ax az bx bz cx cz s px pz : ℝ)
    (h0 : 0 ≤ s) (h1 : s ≤ 1)
    (hx : px = ax + s * (bx - ax)) (hz : pz = az + s * (bz - az)) :
    ¬ mixedSigns (crossR px pz ax az bx bz) (crossR px pz bx bz cx cz)
        (crossR px pz cx cz ax az) := by
  have e1 : crossR px pz ax az bx bz = 0 := by
    rw [hx, hz, crossR]; ring
  have e2 : crossR px pz bx bz cx cz = (1 - s) * crossR ax az bx bz cx cz := by
    rw [hx, hz, crossR, crossR]; ring
  have e3 : crossR px pz cx cz ax az = s * crossR ax az bx bz cx cz := by
    rw [hx, hz, crossR, crossR]; ring
  rw [mixedSigns, e1, e2, e3]
  rintro ⟨hneg, hpos⟩
  rcases le_or_lt 0 (crossR ax az bx bz cx cz) with hA | hA
  · have h2 : 0 ≤ (1 - s) * crossR ax az bx bz cx cz := mul_nonneg (by linarith) hA
    have h3 : 0 ≤ s * crossR ax az bx bz cx cz := mul_nonneg h0 hA
    rcases hneg with h | h | h <;> linarith
  · have h2 : (1 - s) * crossR ax az bx bz cx cz ≤ 0 := by nlinarith
    have h3 : s * crossR ax az bx bz cx cz ≤ 0 := by nlinarith
    rcases hpos with h | h | h <;> linarith

/-- C4: pointInTriangle accepts a point exactly when the three signed areas
d1 = cross(P, v0, v1), d2 = cross(P, v1, v2), d3 = cross(P, v2, v0) do not
contain both a strictly negative and a strictly positive value; in
particular every point of a closed edge segment of the triangle, where the
cross product along that edge is zero, is reported inside. -/
theorem spec_C4 (px pz : QS3) (t : Triangle) (v0 v1 v2 : Vertex)
    (hv : t.vertices = [v0, v1, v2]) :
    (pointInTriangle px pz t = true ↔
      ¬ mixedSigns
        (crossR px.toReal pz.toReal v0.x.toReal v0.z.toReal v1.x.toReal v1.z.toReal)
        (crossR px.toReal pz.toReal v1.x.toReal v1.z.toReal v2.x.toReal v2.z.toReal)
        (crossR px.toReal pz.toReal v2.x.toReal v2.z.toReal v0.x.toReal v0.z.toReal))
    ∧ (∀ s : ℝ, 0 ≤ s → s ≤ 1 →
        ((px.toReal = v0.x.toReal + s * (v1.x.toReal - v0.x.toReal)
            ∧ pz.toReal = v0.z.toReal + s * (v1.z.toReal - v0.z.toReal))
          ∨ (px.toReal = v1.x.toReal + s * (v2.x.toReal - v1.x.toReal)
            ∧ pz.toReal = v1.z.toReal + s * (v2.z.toReal - v1.z.toReal))
          ∨ (px.toReal = v2.x.toReal + s * (v0.x.toReal - v2.x.toReal)
            ∧ pz.toReal = v2.z.toReal + s * (v0.z.toReal - v2.z.toReal))) →
        pointInTriangle px pz t = true) := by
  have hiff := pointInTriangle_iff_signs px pz t v0 v1 v2 hv
  refine ⟨hiff, ?_⟩
  intro s hs0 hs1 hedge
  rw [hiff]
  rcases hedge with ⟨hx, hz⟩ | ⟨hx, hz⟩ | ⟨hx, hz⟩
  · exact edge_not_mixed v0.x.toReal v0.z.toReal v1.x.toReal v1.z.toReal
      v2.x.toReal v2.z.toReal s px.toReal pz.toReal hs0 hs1 hx hz
  · intro hm
    exact edge_not_mixed v1.x.toReal v1.z.toReal v2.x.toReal v2.z.toReal
      v0.x.toReal v0.z.toReal s px.toReal pz.toReal hs0 hs1 hx hz
      ((mixedSigns_rotate _ _ _).mp hm)
  · intro hm
    exact edge_not_mixed v2.x.toReal v2.z.toReal v0.x.toReal v0.z.toReal
      v1.x.toReal v1.z.toReal s px.toReal pz.toReal hs0 hs1 hx hz
      ((mixedSigns_rotate _ _ _).mp ((mixedSigns_rotate _ _ _).mp hm))

/-- A small explicit triangle used to witness the point-in-triangle
specification at a concrete input. -/
def edgeProbeTri : Triangle :=
  { type := "major",
    vertices :=
      [ { x := ⟨0, 0⟩, z := ⟨0, 0⟩, pitchClass := 0, noteName := "" },
        { x := ⟨1, 0⟩, z := ⟨0, 0⟩, pitchClass := 0, noteName := "" },
        { x := ⟨0, 0⟩, z := ⟨1, 0⟩, pitchClass := 0, noteName := "" } ],
    center := default, chord := [], chordName := "", row := 0, col := 0 }

theorem spec_C4_witness : pointInTriangle ⟨0, 0⟩ ⟨0, 0⟩ edgeProbeTri = true :=
  (spec_C4 ⟨0, 0⟩ ⟨0, 0⟩ edgeProbeTri _ _ _ rfl).2 0 le_rfl zero_le_one
    (Or.inl ⟨by simp [QS3.toReal_mk], by simp [QS3.toReal_mk]⟩)
